import Mathlib

/-!
Verification development for the Project Controls Toolkit EVM report
(`scripts/evm.py`).

The Python module works on IEEE doubles.  We embed its numeric values as
`PyFloat`: either the not-a-number sentinel, a signed infinity, or a finite
value modelled exactly by a rational number.  Rounding of binary doubles is
not modelled; every amount appearing in the spec's examples is an exact
decimal, so the rational semantics agrees with the source on them.

Rational arithmetic is routed through `Rat.divInt`-based helpers (`qadd`,
`qmul`, ...) so that all definitions evaluate inside the kernel; the
lemmas `qadd_eq` etc. identify them with the field operations of `ℚ`.
-/

instance {ε α : Type} [DecidableEq ε] [DecidableEq α] : DecidableEq (Except ε α) := fun a b =>
  match a, b with
  | .error x, .error y =>
    if h : x = y then .isTrue (by rw [h]) else .isFalse (by intro hc; cases hc; exact h rfl)
  | .error _, .ok _ => .isFalse (by intro hc; cases hc)
  | .ok _, .error _ => .isFalse (by intro hc; cases hc)
  | .ok x, .ok y =>
    if h : x = y then .isTrue (by rw [h]) else .isFalse (by intro hc; cases hc; exact h rfl)

/-- Negation on `ℚ` by components (kernel-computable). -/
def qneg (a : ℚ) : ℚ := Rat.divInt (-a.num) a.den

/-- Addition on `ℚ` by components (kernel-computable). -/
def qadd (a b : ℚ) : ℚ := Rat.divInt (a.num * b.den + b.num * a.den) (a.den * b.den)

/-- Subtraction on `ℚ` by components (kernel-computable). -/
def qsub (a b : ℚ) : ℚ := qadd a (qneg b)

/-- Multiplication on `ℚ` by components (kernel-computable). -/
def qmul (a b : ℚ) : ℚ := Rat.divInt (a.num * b.num) (a.den * b.den)

/-- Division on `ℚ` by components (kernel-computable); `qdiv a 0 = 0`,
matching Mathlib's junk value for division by zero. -/
def qdiv (a b : ℚ) : ℚ := Rat.divInt (a.num * b.den) (a.den * b.num)

/-- Absolute value on `ℚ` (kernel-computable). -/
def qabs (a : ℚ) : ℚ := if a < 0 then qneg a else a

/-- Binary maximum on `ℚ` (kernel-computable). -/
def qmax (a b : ℚ) : ℚ := if a ≤ b then b else a

theorem qneg_eq (a : ℚ) : qneg a = -a := by
  rw [qneg, Rat.divInt_eq_div]
  push_cast
  rw [neg_div, Rat.num_div_den]

theorem qadd_eq (a b : ℚ) : qadd a b = a + b := by
  have ha : ((a.den : ℤ) : ℚ) ≠ 0 := by exact_mod_cast a.den_nz
  have hb : ((b.den : ℤ) : ℚ) ≠ 0 := by exact_mod_cast b.den_nz
  rw [qadd, Rat.divInt_eq_div]
  push_cast
  conv_rhs => rw [← Rat.num_div_den a, ← Rat.num_div_den b]
  push_cast at ha hb ⊢
  field_simp

theorem qsub_eq (a b : ℚ) : qsub a b = a - b := by
  rw [qsub, qadd_eq, qneg_eq, sub_eq_add_neg]

theorem qmul_eq (a b : ℚ) : qmul a b = a * b := by
  have ha : ((a.den : ℤ) : ℚ) ≠ 0 := by exact_mod_cast a.den_nz
  have hb : ((b.den : ℤ) : ℚ) ≠ 0 := by exact_mod_cast b.den_nz
  rw [qmul, Rat.divInt_eq_div]
  push_cast
  conv_rhs => rw [← Rat.num_div_den a, ← Rat.num_div_den b]
  push_cast at ha hb ⊢
  field_simp

theorem qdiv_eq (a b : ℚ) : qdiv a b = a / b := by
  rcases eq_or_ne b 0 with hb | hb
  · subst hb
    simp [qdiv, Rat.divInt_eq_div]
  · have hbn : (b.num : ℚ) ≠ 0 := by
      exact_mod_cast Rat.num_ne_zero.mpr hb
    have ha : ((a.den : ℤ) : ℚ) ≠ 0 := by exact_mod_cast a.den_nz
    have hbd : ((b.den : ℤ) : ℚ) ≠ 0 := by exact_mod_cast b.den_nz
    rw [qdiv, Rat.divInt_eq_div]
    push_cast
    conv_rhs => rw [← Rat.num_div_den a, ← Rat.num_div_den b]
    push_cast at ha hbd ⊢
    field_simp

theorem qabs_eq (a : ℚ) : qabs a = |a| := by
  rw [qabs]
  split_ifs with h
  · rw [qneg_eq, abs_of_neg h]
  · rw [abs_of_nonneg (not_lt.1 h)]

theorem qmax_eq (a b : ℚ) : qmax a b = max a b := by
  rw [qmax, max_def]

/-- A Python float value: NaN, a signed infinity (`pos = true` for `+inf`),
or a finite value (modelled exactly as a rational). -/
inductive PyFloat where
  | nan : PyFloat
  | inf (pos : Bool) : PyFloat
  | fin (q : ℚ) : PyFloat
deriving DecidableEq, Repr

namespace PyFloat

/-- `math.isnan`. -/
def isNan : PyFloat → Bool
  | .nan => true
  | _ => false

/-- `math.isfinite`: true exactly on finite values. -/
def isFinite : PyFloat → Bool
  | .fin _ => true
  | _ => false

/-- Python `x == 0` on a float. NaN and infinities compare unequal to 0. -/
def eqZero : PyFloat → Bool
  | .fin q => q == 0
  | _ => false

/-- Float negation. -/
def neg : PyFloat → PyFloat
  | .nan => .nan
  | .inf s => .inf (!s)
  | .fin q => .fin (qneg q)

/-- Float addition (`inf + (-inf) = nan`; NaN absorbs). Overflow of finite
sums to infinity is not modelled. -/
def add : PyFloat → PyFloat → PyFloat
  | .nan, _ => .nan
  | _, .nan => .nan
  | .inf s, .inf t => if s = t then .inf s else .nan
  | .inf s, .fin _ => .inf s
  | .fin _, .inf t => .inf t
  | .fin a, .fin b => .fin (qadd a b)

/-- Float subtraction, `a - b = a + (-b)`. -/
def sub (a b : PyFloat) : PyFloat := add a (neg b)

/-- Float multiplication (`inf * 0 = nan`; NaN absorbs). -/
def mul : PyFloat → PyFloat → PyFloat
  | .nan, _ => .nan
  | _, .nan => .nan
  | .inf s, .inf t => .inf (s == t)
  | .inf s, .fin q => if q = 0 then .nan else .inf (s == decide (0 < q))
  | .fin q, .inf t => if q = 0 then .nan else .inf (t == decide (0 < q))
  | .fin a, .fin b => .fin (qmul a b)

/-- Float true division.  The case `fin / fin 0` raises `ZeroDivisionError`
in Python; in this development division is only reached through
`_safe_div`, whose guard filters out a zero divisor, so that branch is
unreachable and mapped to the NaN sentinel. -/
def div : PyFloat → PyFloat → PyFloat
  | .nan, _ => .nan
  | _, .nan => .nan
  | .inf _, .inf _ => .nan
  | .inf s, .fin q => if q = 0 then .nan else .inf (s == decide (0 < q))
  | .fin _, .inf _ => .fin 0
  | .fin a, .fin b => if b = 0 then .nan else .fin (qdiv a b)

/-- `math.isclose(b, 0.0)` with the default tolerances
`rel_tol = 1e-9`, `abs_tol = 0.0`:
`|b - 0| <= max(rel_tol * max(|b|, |0|), abs_tol)`.
NaN and infinities are never close to `0`. -/
def iscloseZero : PyFloat → Bool
  | .fin q => qabs (qsub q 0) ≤ qmax (qmul (Rat.divInt 1 1000000000) (qmax (qabs q) (qabs 0))) 0
  | _ => false

end PyFloat

/-- `_safe_div(a, b)`: NaN when `b == 0 or math.isclose(b, 0.0)`, else `a / b`. -/
def _safe_div (a b : PyFloat) : PyFloat :=
  if b.eqZero || b.iscloseZero then .nan else PyFloat.div a b

/-! ## The `float(...)` builtin, restricted to the textual forms this tool
can feed it: an optional sign followed by `inf`/`infinity`/`nan`
(case-insensitive) or by a decimal literal `digits [. digits] [(e|E) [sign] digits]`
with at least one mantissa digit.  PEP 515 underscore grouping is not
modelled (no claim involves it). -/

/-- ASCII decimal digit test. -/
def isDigitC (c : Char) : Bool := '0' ≤ c && c ≤ '9'

/-- Numeric value of an ASCII digit. -/
def digitVal (c : Char) : ℕ := c.toNat - '0'.toNat

/-- Value of a digit string read most-significant first. -/
def natOfDigits (ds : List Char) : ℕ :=
  ds.foldl (fun n c => 10 * n + digitVal c) 0

/-- Consume an optional leading sign; `true` means non-negative. -/
def parseSign (l : List Char) : Bool × List Char :=
  match l with
  | [] => (true, [])
  | c :: rest =>
    if c = '+' then (true, rest)
    else if c = '-' then (false, rest)
    else (true, c :: rest)

/-- Split a leading run of digits from the rest. -/
def takeDigits (l : List Char) : List Char × List Char :=
  (l.takeWhile isDigitC, l.dropWhile isDigitC)

/-- Parse an unsigned decimal literal (mantissa with at most one point,
optional integer exponent); `none` on any malformed input.  The value is
`intpart.fracpart × 10^±exp`, assembled with the computable `ℚ` helpers. -/
def parseUnsigned (l : List Char) : Option ℚ :=
  let p1 := takeDigits l
  let p2 : List Char × List Char :=
    match p1.2 with
    | c :: t => if c = '.' then takeDigits t else ([], p1.2)
    | [] => ([], p1.2)
  if p1.1.isEmpty && p2.1.isEmpty then none
  else
    let mant : ℚ :=
      qadd (natOfDigits p1.1 : ℚ) (qdiv (natOfDigits p2.1 : ℚ) ((10 ^ p2.1.length : ℕ) : ℚ))
    match p2.2 with
    | [] => some mant
    | e :: t =>
      if e = 'e' || e = 'E' then
        let sg := parseSign t
        let p3 := takeDigits sg.2
        if p3.1.isEmpty || !p3.2.isEmpty then none
        else if sg.1 then some (qmul mant ((10 ^ natOfDigits p3.1 : ℕ) : ℚ))
        else some (qdiv mant ((10 ^ natOfDigits p3.1 : ℕ) : ℚ))
      else none

/-- Python `float(str)` on an already-stripped string (as a char list):
`some` value on success, `none` where Python raises `ValueError`. -/
def pyFloat? (l : List Char) : Option PyFloat :=
  let sg := parseSign l
  let low := sg.2.map Char.toLower
  if low = "inf".toList || low = "infinity".toList then some (.inf sg.1)
  else if low = "nan".toList then some .nan
  else
    match parseUnsigned sg.2 with
    | some q => some (.fin (if sg.1 then q else qneg q))
    | none => none

/-- `float(s)` as the exception-aware call sites see it: `ValueError`
becomes `Except.error` carrying Python's message. -/
def pyFloatE (l : List Char) : Except String PyFloat :=
  match pyFloat? l with
  | some v => .ok v
  | none => .error ("could not convert string to float: " ++ String.mk l)

/-- Python `str.strip()` on a char list. -/
def pyStrip (l : List Char) : List Char :=
  ((l.dropWhile Char.isWhitespace).reverse.dropWhile Char.isWhitespace).reverse

/-- Python `s.rfind(c)`: highest index of `c`, `-1` when absent. -/
def lastIdxOf (c : Char) (l : List Char) : ℤ :=
  (l.foldl (fun (p : ℤ × ℤ) ch => (p.1 + 1, if ch = c then p.1 else p.2)) (0, -1)).2

/-- `s.replace(",", ".")` (single-char pattern). -/
def commaToDot (l : List Char) : List Char :=
  l.map (fun ch => if ch = ',' then '.' else ch)

/-- `_to_float(x)`: strip; empty means NaN; with both separators the
rightmost one is the decimal point and the other is stripped as grouping;
a lone comma is a decimal comma; then `float(...)`. -/
def _to_float (x : String) : Except String PyFloat :=
  let l := pyStrip x.toList
  if l = [] then .ok .nan
  else
    let l2 :=
      if l.contains ',' && l.contains '.' then
        if lastIdxOf ',' l > lastIdxOf '.' l then
          commaToDot (l.filter (fun c => c ≠ '.'))
        else
          l.filter (fun c => c ≠ ',')
      else if l.contains ',' then commaToDot l
      else l
    pyFloatE l2

example : _to_float "12,345.67" = .ok (.fin (mkRat 1234567 100)) := by decide
example : _to_float "12.345,67" = .ok (.fin (mkRat 1234567 100)) := by decide
example : _to_float "1234,56" = .ok (.fin (mkRat 123456 100)) := by decide
example : _to_float "" = .ok .nan := by decide
example : _to_float "inf" = .ok (.inf true) := by decide
example : (_to_float "1,234,567").isOk = false := by decide
example : _to_float "-2.5e2" = .ok (.fin (mkRat (-250) 1)) := by decide

/-! ## Dates: `_parse_date` tries `%Y-%m-%d`, `%d/%m/%Y`, `%Y/%m/%d` in
that order via `datetime.strptime`.  CPython compiles each format to a
regex — `%Y` is exactly four digits, `%m` is `1[0-2]|0[1-9]|[1-9]`, `%d`
is `3[01]|[12]\d|0[1-9]|[1-9]` (two-digit alternatives tried before the
one-digit one, with backtracking) — and then builds a `datetime`, which
re-checks the day against the month length and requires year ≥ 1. -/

/-- A calendar date (no time component). -/
structure Date where
  year : ℕ
  month : ℕ
  day : ℕ
deriving DecidableEq, Repr

/-- Gregorian leap-year rule, as in `datetime`. -/
def isLeapYear (y : ℕ) : Bool := (y % 4 = 0 && y % 100 ≠ 0) || y % 400 = 0

/-- Number of days in a month, as checked by the `datetime` constructor. -/
def daysInMonth (y m : ℕ) : ℕ :=
  if m = 2 then (if isLeapYear y then 29 else 28)
  else if m = 4 || m = 6 || m = 9 || m = 11 then 30
  else 31

/-- The `datetime(year, month, day)` constructor's validity check
(`MINYEAR = 1`; `%Y` caps the year at 9999). -/
def validDate (y m d : ℕ) : Bool :=
  1 ≤ y && 1 ≤ m && m ≤ 12 && 1 ≤ d && d ≤ daysInMonth y m

/-- Try each candidate in order, keeping the first success (regex
alternation with backtracking). -/
def firstSome {α β : Type} (cands : List α) (f : α → Option β) : Option β :=
  match cands with
  | [] => none
  | x :: xs =>
    match f x with
    | some b => some b
    | none => firstSome xs f

/-- Candidate matches for a 1-to-2-digit field with value in `1..maxv`,
in regex priority order: the two-digit alternatives, then `[1-9]`. -/
def fieldCands (maxv : ℕ) (l : List Char) : List (ℕ × List Char) :=
  (match l with
   | a :: b :: rest =>
     if isDigitC a && isDigitC b then
       let v := 10 * digitVal a + digitVal b
       if 1 ≤ v && v ≤ maxv then [(v, rest)] else []
     else []
   | _ => []) ++
  (match l with
   | a :: rest =>
     if isDigitC a && 1 ≤ digitVal a then [(digitVal a, rest)] else []
   | _ => [])

/-- Match `%Y`: exactly four digits. -/
def read4Year : List Char → Option (ℕ × List Char)
  | a :: b :: c :: d :: rest =>
    if isDigitC a && isDigitC b && isDigitC c && isDigitC d then
      some (natOfDigits [a, b, c, d], rest)
    else none
  | _ => none

/-- Full-string regex match for `%Y sep %m sep %d`: `(year, month, day)`. -/
def matchYMD (sep : Char) (l : List Char) : Option (ℕ × ℕ × ℕ) :=
  match read4Year l with
  | none => none
  | some (y, r0) =>
    match r0 with
    | c1 :: r1 =>
      if c1 = sep then
        firstSome (fieldCands 12 r1) (fun mr =>
          match mr.2 with
          | c2 :: r2 =>
            if c2 = sep then
              firstSome (fieldCands 31 r2) (fun dr =>
                if dr.2 = [] then some (y, mr.1, dr.1) else none)
            else none
          | [] => none)
      else none
    | [] => none

/-- Full-string regex match for `%d sep %m sep %Y`: `(year, month, day)`. -/
def matchDMY (sep : Char) (l : List Char) : Option (ℕ × ℕ × ℕ) :=
  firstSome (fieldCands 31 l) (fun dr =>
    match dr.2 with
    | c1 :: r1 =>
      if c1 = sep then
        firstSome (fieldCands 12 r1) (fun mr =>
          match mr.2 with
          | c2 :: r2 =>
            if c2 = sep then
              match read4Year r2 with
              | some (y, r3) => if r3 = [] then some (y, mr.1, dr.1) else none
              | none => none
            else none
          | [] => none)
      else none
    | [] => none)

/-- `datetime.strptime(s, fmt)` for one format: regex match, then the
`datetime` constructor's validity check. -/
def strptime (m : List Char → Option (ℕ × ℕ × ℕ)) (l : List Char) : Option Date :=
  match m l with
  | some (y, mo, d) => if validDate y mo d then some ⟨y, mo, d⟩ else none
  | none => none

/-- `_parse_date(d)`: strip, try the three formats in priority order,
else raise naming the unrecognized string. -/
def _parse_date (d : String) : Except String Date :=
  let s := pyStrip d.toList
  match strptime (matchYMD '-') s with
  | some dt => .ok dt
  | none =>
    match strptime (matchDMY '/') s with
    | some dt => .ok dt
    | none =>
      match strptime (matchYMD '/') s with
      | some dt => .ok dt
      | none =>
        .error ("Unrecognized Date format: " ++ d ++ ". Use YYYY-MM-DD (recommended).")

/-- `date.strftime("%Y-%m-%d")`: zero-padded ISO rendering. -/
def strftimeYmd (dt : Date) : String :=
  let pad : ℕ → ℕ → String := fun w n =>
    let s := toString n
    String.mk (List.replicate (w - s.length) '0') ++ s
  pad 4 dt.year ++ "-" ++ pad 2 dt.month ++ "-" ++ pad 2 dt.day

example : _parse_date "03/04/2024" = .ok ⟨2024, 4, 3⟩ := by decide
example : _parse_date "2024-01-01" = .ok ⟨2024, 1, 1⟩ := by decide
example : _parse_date "2024/1/5" = .ok ⟨2024, 1, 5⟩ := by decide
example : (_parse_date "2024-02-30").isOk = false := by decide
example : (_parse_date "2024-13-01").isOk = false := by decide
example : _parse_date "2024-2-29" = .ok ⟨2024, 2, 29⟩ := by decide
example : strftimeYmd ⟨2024, 4, 3⟩ = "2024-04-03" := by decide

/-! ## Rows and the CSV reader loop.  File existence, the header check and
CSV field splitting are I/O glue outside the core; `read_evm_csv` is
modelled from the point where `csv.DictReader` yields one raw record per
data row, enumerated from 2 (the header is file row 1). -/

/-- One validated ledger row (`EVMRow` dataclass). -/
structure EVMRow where
  date : Date
  pv : PyFloat
  ev : PyFloat
  ac : PyFloat
deriving DecidableEq, Repr

/-- One raw CSV record, projected to the four required columns. -/
structure RawRow where
  Date : String
  PV : String
  EV : String
  AC : String
deriving DecidableEq, Repr

/-- The two `ValueError`s the row loop can raise: a wrapped parse failure
(`"Error parsing row {i}: {e}"`) or the NaN check
(`"Row {i} has empty/non-numeric PV/EV/AC: {r}"`).  Both carry the file
row number `i`; the first carries the inner exception text, the second
the offending raw record. -/
inductive RowError where
  | parseError (rowIdx : ℕ) (msg : String) : RowError
  | nanError (rowIdx : ℕ) (row : RawRow) : RowError
deriving DecidableEq, Repr

/-- The file row number an error reports. -/
def RowError.rowIdx : RowError → ℕ
  | .parseError i _ => i
  | .nanError i _ => i

/-- The `try` block of the row loop: parse the date and the three
amounts, propagating the first failure. -/
def parseRow (r : RawRow) : Except String (Date × PyFloat × PyFloat × PyFloat) :=
  match _parse_date r.Date with
  | .error e => .error e
  | .ok date =>
    match _to_float r.PV with
    | .error e => .error e
    | .ok pv =>
      match _to_float r.EV with
      | .error e => .error e
      | .ok ev =>
        match _to_float r.AC with
        | .error e => .error e
        | .ok ac => .ok (date, pv, ev, ac)

/-- The `ValueError` raised for a given bad raw row at file row `i`
(parse failures are re-raised wrapped; otherwise the NaN check fires). -/
def rowErrorFor (i : ℕ) (r : RawRow) : RowError :=
  match parseRow r with
  | .error e => .parseError i e
  | .ok _ => .nanError i r

/-- The `for i, r in enumerate(reader, start=2)` loop body over raw rows. -/
def readLoop : List RawRow → ℕ → Except RowError (List EVMRow)
  | [], _ => .ok []
  | r :: rest, i =>
    match parseRow r with
    | .error e => .error (.parseError i e)
    | .ok (date, pv, ev, ac) =>
      if pv.isNan || ev.isNan || ac.isNan then .error (.nanError i r)
      else
        match readLoop rest (i + 1) with
        | .error e => .error e
        | .ok tl => .ok (⟨date, pv, ev, ac⟩ :: tl)

/-- Strict lexicographic order on dates (`datetime` comparison). -/
def Date.ltb (a b : Date) : Bool :=
  a.year < b.year ||
    (a.year = b.year && (a.month < b.month || (a.month = b.month && a.day < b.day)))

/-- Insert a row before the first element whose date is not strictly
earlier; used by the stable sort. -/
def insertRow (r : EVMRow) : List EVMRow → List EVMRow
  | [] => [r]
  | x :: xs => if Date.ltb x.date r.date then x :: insertRow r xs else r :: x :: xs

/-- `rows.sort(key=lambda x: x.date)`: a stable sort by date.  Python uses
Timsort; any stable sort computes the same list, and this structural
insertion sort keeps equal dates in their original order. -/
def sortByDate : List EVMRow → List EVMRow
  | [] => []
  | x :: xs => insertRow x (sortByDate xs)

/-- `read_evm_csv`, from the row loop on: validate every row (aborting on
the first bad one), then sort by date. -/
def read_evm_csv (raws : List RawRow) : Except RowError (List EVMRow) :=
  match readLoop raws 2 with
  | .error e => .error e
  | .ok rows => .ok (sortByDate rows)

example : read_evm_csv [⟨"2024-01-01", "1", "2", "3"⟩] =
    .ok [⟨⟨2024, 1, 1⟩, .fin 1, .fin 2, .fin 3⟩] := by decide
example : read_evm_csv [⟨"2024-01-01", "", "2", "3"⟩] =
    .error (.nanError 2 ⟨"2024-01-01", "", "2", "3"⟩) := by decide
example : read_evm_csv [⟨"2024-01-01", "1", "2", "3"⟩, ⟨"bad", "1", "2", "3"⟩] =
    .error (.parseError 3 "Unrecognized Date format: bad. Use YYYY-MM-DD (recommended).") := by
  decide

/-! ## The EVM engine (`compute_evm`). -/

/-- One output detail record (one dict per ledger row). -/
structure DetailRecord where
  Date : String
  PV_period : PyFloat
  EV_period : PyFloat
  AC_period : PyFloat
  PV_cum : PyFloat
  EV_cum : PyFloat
  AC_cum : PyFloat
  SV : PyFloat
  CV : PyFloat
  SPI : PyFloat
  CPI : PyFloat
deriving DecidableEq, Repr

/-- The summary dict. -/
structure SummaryRecord where
  BAC : PyFloat
  BAC_source : String
  PV_cum : PyFloat
  EV_cum : PyFloat
  AC_cum : PyFloat
  SPI : PyFloat
  CPI : PyFloat
  SV : PyFloat
  CV : PyFloat
  EAC_CPI : PyFloat
  ETC_CPI : PyFloat
  VAC_CPI : PyFloat
  EAC_CPI_SPI : PyFloat
  ETC_CPI_SPI : PyFloat
  VAC_CPI_SPI : PyFloat
deriving DecidableEq, Repr

/-- The accumulation loop of `compute_evm`: running cumulative totals,
one detail record per row. -/
def detailLoop : List EVMRow → PyFloat → PyFloat → PyFloat → List DetailRecord
  | [], _, _, _ => []
  | r :: rest, cumPv, cumEv, cumAc =>
    let cumPv := cumPv.add r.pv
    let cumEv := cumEv.add r.ev
    let cumAc := cumAc.add r.ac
    { Date := strftimeYmd r.date
      PV_period := r.pv, EV_period := r.ev, AC_period := r.ac
      PV_cum := cumPv, EV_cum := cumEv, AC_cum := cumAc
      SV := cumEv.sub cumPv
      CV := cumEv.sub cumAc
      SPI := _safe_div cumEv cumPv
      CPI := _safe_div cumEv cumAc } :: detailLoop rest cumPv cumEv cumAc

/-- The terminal derivation of `compute_evm`, from `out[-1]` (or the
`last.get` defaults when the detail list is empty) and the optional
user BAC. -/
def summarize (last? : Option DetailRecord) (bac : Option ℚ) : SummaryRecord :=
  let inferred_bac := match last? with | some l => l.PV_cum | none => .fin 0
  let bac_final := match bac with | some b => PyFloat.fin b | none => inferred_bac
  let cpi_last := match last? with | some l => l.CPI | none => .nan
  let spi_last := match last? with | some l => l.SPI | none => .nan
  let ac_last := match last? with | some l => l.AC_cum | none => .fin 0
  let ev_last := match last? with | some l => l.EV_cum | none => .fin 0
  let eac_cpi := if cpi_last.isNan then PyFloat.nan else _safe_div bac_final cpi_last
  let denom := if cpi_last.isNan || spi_last.isNan then PyFloat.nan else cpi_last.mul spi_last
  let eac_cpi_spi :=
    if denom.isNan then PyFloat.nan else ac_last.add (_safe_div (bac_final.sub ev_last) denom)
  let etc_cpi := if eac_cpi.isNan then PyFloat.nan else eac_cpi.sub ac_last
  let etc_cpi_spi := if eac_cpi_spi.isNan then PyFloat.nan else eac_cpi_spi.sub ac_last
  let vac_cpi := if eac_cpi.isNan then PyFloat.nan else bac_final.sub eac_cpi
  let vac_cpi_spi := if eac_cpi_spi.isNan then PyFloat.nan else bac_final.sub eac_cpi_spi
  { BAC := bac_final
    BAC_source := if bac.isSome then "user" else "inferred_from_last_PV_cum"
    PV_cum := match last? with | some l => l.PV_cum | none => .fin 0
    EV_cum := ev_last
    AC_cum := ac_last
    SPI := spi_last
    CPI := cpi_last
    SV := match last? with | some l => l.SV | none => .nan
    CV := match last? with | some l => l.CV | none => .nan
    EAC_CPI := eac_cpi
    ETC_CPI := etc_cpi
    VAC_CPI := vac_cpi
    EAC_CPI_SPI := eac_cpi_spi
    ETC_CPI_SPI := etc_cpi_spi
    VAC_CPI_SPI := vac_cpi_spi }

/-- `compute_evm(rows, bac)`: the detail fold followed by the summary. -/
def compute_evm (rows : List EVMRow) (bac : Option ℚ) :
    List DetailRecord × SummaryRecord :=
  let out := detailLoop rows (.fin 0) (.fin 0) (.fin 0)
  (out, summarize out.getLast? bac)

example :
    (compute_evm [⟨⟨2024, 1, 1⟩, .fin 1000, .fin 900, .fin 950⟩,
                  ⟨⟨2024, 2, 1⟩, .fin 1000, .fin 1100, .fin 1000⟩] (some 5000)).2.EAC_CPI =
      .fin 4875 := by decide
example :
    (compute_evm [⟨⟨2024, 1, 1⟩, .fin 1000, .fin 900, .fin 950⟩,
                  ⟨⟨2024, 2, 1⟩, .fin 1000, .fin 1100, .fin 1000⟩] (some 5000)).2.VAC_CPI =
      .fin 125 := by decide
example : (compute_evm [] none).2.SPI = .nan := by decide
example : (compute_evm [] (some 7)).2.BAC = .fin 7 := by decide

/-! ## Shared lemmas about the numeric model. -/

theorem PyFloat.isNan_fin (q : ℚ) : (PyFloat.fin q).isNan = false := rfl

theorem PyFloat.fin_add_fin (a b : ℚ) :
    (PyFloat.fin a).add (.fin b) = .fin (a + b) := by
  simp [PyFloat.add, qadd_eq]

theorem PyFloat.fin_sub_fin (a b : ℚ) :
    (PyFloat.fin a).sub (.fin b) = .fin (a - b) := by
  simp [PyFloat.sub, PyFloat.add, PyFloat.neg, qadd_eq, qneg_eq, sub_eq_add_neg]

theorem PyFloat.fin_mul_fin (a b : ℚ) :
    (PyFloat.fin a).mul (.fin b) = .fin (a * b) := by
  simp [PyFloat.mul, qmul_eq]

/-- `math.isclose(b, 0.0)` with the default (relative) tolerance holds for
a finite `b` exactly when `b = 0`: the bound is `|b| ≤ 1e-9 * |b|`. -/
theorem iscloseZero_fin_iff (q : ℚ) : PyFloat.iscloseZero (.fin q) = true ↔ q = 0 := by
  simp only [PyFloat.iscloseZero, qabs_eq, qsub_eq, qmax_eq, qmul_eq, Rat.divInt_eq_div,
    decide_eq_true_eq]
  constructor
  · intro h
    have h0 : |(0 : ℚ)| = 0 := abs_zero
    rw [sub_zero, h0, max_eq_left (abs_nonneg q)] at h
    have hc : ((1 : ℤ) : ℚ) / ((1000000000 : ℤ) : ℚ) * |q| ≤ |q| / 2 := by
      have := abs_nonneg q
      push_cast
      linarith
    have hmax : max (((1 : ℤ) : ℚ) / ((1000000000 : ℤ) : ℚ) * |q|) 0 ≤ |q| / 2 := by
      have := abs_nonneg q
      exact max_le hc (by linarith)
    have : |q| ≤ |q| / 2 := le_trans h hmax
    have : |q| = 0 := by linarith [abs_nonneg q]
    exact abs_eq_zero.mp this
  · intro h
    subst h
    norm_num

/-- `_safe_div` on finite arguments: NaN exactly at a zero denominator,
`a / b` otherwise. -/
theorem safe_div_fin_fin (a b : ℚ) :
    _safe_div (.fin a) (.fin b) = if b = 0 then .nan else .fin (a / b) := by
  by_cases hb : b = 0
  · subst hb
    simp [_safe_div, PyFloat.eqZero]
  · have h1 : (PyFloat.fin b).eqZero = false := by
      simp [PyFloat.eqZero, hb]
    have h2 : (PyFloat.fin b).iscloseZero = false := by
      rw [Bool.eq_false_iff]
      intro hc
      exact hb (iscloseZero_fin_iff b |>.mp hc)
    rw [_safe_div, h1, h2]
    simp [PyFloat.div, hb, qdiv_eq]

/-- C2 claim text, general part: "the ratio helper returns the
not-a-number sentinel whenever b is zero or within a small absolute (not
relative) tolerance of zero".  False on the code: `math.isclose` is called
with its default tolerances (`rel_tol=1e-9`, `abs_tol=0.0`), whose bound
against `0.0` degenerates to exact equality, so NO positive absolute
tolerance is honoured: for every `tol > 0` the denominator `b = tol`
itself has `|b| ≤ tol` yet divides normally. -/
theorem C2_safe_div_counterexample :
    ¬ ∃ tol : ℚ, 0 < tol ∧ ∀ b : ℚ, |b| ≤ tol → _safe_div (.fin 1) (.fin b) = .nan := by
  rintro ⟨tol, htol, h⟩
  have habs : |tol| ≤ tol := le_of_eq (abs_of_pos htol)
  have := h tol habs
  rw [safe_div_fin_fin, if_neg (ne_of_gt htol)] at this
  cases this

/-- C2 amended: `_safe_div(a, b)` on finite reals returns the NaN sentinel
exactly when `b` is zero (the `math.isclose(b, 0.0)` guard, with its
default relative tolerance and `abs_tol=0.0`, adds nothing beyond exact
equality), never raises (it is a total function), and returns `a / b` for
every other `b`; and a ledger whose first cumulative PV is `0` yields
SPI = NaN for that detail row — not a raised error and not `0`. -/
theorem C2_safe_div_zero_only :
    (∀ a b : ℚ, _safe_div (.fin a) (.fin b) = if b = 0 then .nan else .fin (a / b)) ∧
    ((compute_evm [⟨⟨2024, 1, 1⟩, .fin 0, .fin 5, .fin 3⟩] none).1.map
        (fun r => r.SPI)) = [.nan] ∧
    PyFloat.nan ≠ .fin 0 := by
  refine ⟨safe_div_fin_fin, by decide, by decide⟩

/-- NaN propagation in the terminal derivation, at the `summarize` level:
a NaN final CPI forces the cost-only triple to NaN, and a NaN final CPI or
SPI forces the cost-times-schedule triple to NaN. -/
theorem summarize_nan_propagation (last? : Option DetailRecord) (bac : Option ℚ) :
    ((summarize last? bac).CPI = .nan →
      (summarize last? bac).EAC_CPI = .nan ∧
      (summarize last? bac).ETC_CPI = .nan ∧
      (summarize last? bac).VAC_CPI = .nan) ∧
    ((summarize last? bac).CPI = .nan ∨ (summarize last? bac).SPI = .nan →
      (summarize last? bac).EAC_CPI_SPI = .nan ∧
      (summarize last? bac).ETC_CPI_SPI = .nan ∧
      (summarize last? bac).VAC_CPI_SPI = .nan) := by
  simp only [summarize]
  constructor
  · intro h
    rw [h]
    simp [PyFloat.isNan]
  · intro h
    rcases h with h | h
    · rw [h]
      simp [PyFloat.isNan]
    · rw [h]
      simp [PyFloat.isNan]

/-- C6: if the summary's final CPI is the NaN sentinel, the whole
cost-only forecast triple (EAC, ETC, VAC) is NaN; if the final CPI or SPI
is NaN, the whole cost-times-schedule triple is NaN — the sentinel
propagates and is never replaced by zero. -/
theorem C6_nan_propagates (rows : List EVMRow) (bac : Option ℚ) :
    ((compute_evm rows bac).2.CPI = .nan →
      (compute_evm rows bac).2.EAC_CPI = .nan ∧
      (compute_evm rows bac).2.ETC_CPI = .nan ∧
      (compute_evm rows bac).2.VAC_CPI = .nan) ∧
    ((compute_evm rows bac).2.CPI = .nan ∨ (compute_evm rows bac).2.SPI = .nan →
      (compute_evm rows bac).2.EAC_CPI_SPI = .nan ∧
      (compute_evm rows bac).2.ETC_CPI_SPI = .nan ∧
      (compute_evm rows bac).2.VAC_CPI_SPI = .nan) := by
  exact summarize_nan_propagation
    (detailLoop rows (.fin 0) (.fin 0) (.fin 0)).getLast? bac

/-- C6 witness: a one-row ledger with `AC = 0` makes the final CPI NaN,
and all three cost-only forecasts (and, with SPI finite, all three
combined forecasts via the CPI disjunct) come out NaN. -/
theorem C6_nan_propagates_witness :
    (compute_evm [⟨⟨2024, 1, 1⟩, .fin 1, .fin 1, .fin 0⟩] none).2.EAC_CPI = .nan ∧
    (compute_evm [⟨⟨2024, 1, 1⟩, .fin 1, .fin 1, .fin 0⟩] none).2.ETC_CPI = .nan ∧
    (compute_evm [⟨⟨2024, 1, 1⟩, .fin 1, .fin 1, .fin 0⟩] none).2.VAC_CPI = .nan ∧
    (compute_evm [⟨⟨2024, 1, 1⟩, .fin 1, .fin 1, .fin 0⟩] none).2.EAC_CPI_SPI = .nan := by
  have h := C6_nan_propagates [⟨⟨2024, 1, 1⟩, .fin 1, .fin 1, .fin 0⟩] none
  have hcpi : (compute_evm [⟨⟨2024, 1, 1⟩, .fin 1, .fin 1, .fin 0⟩] none).2.CPI = .nan := by
    decide
  obtain ⟨h1, h2⟩ := h
  exact ⟨(h1 hcpi).1, (h1 hcpi).2.1, (h1 hcpi).2.2, (h2 (Or.inl hcpi)).1⟩

/-- The float-valued fields of a summary record, in source order. -/
def summaryFields (s : SummaryRecord) : List PyFloat :=
  [s.BAC, s.PV_cum, s.EV_cum, s.AC_cum, s.SPI, s.CPI, s.SV, s.CV,
   s.EAC_CPI, s.ETC_CPI, s.VAC_CPI, s.EAC_CPI_SPI, s.ETC_CPI_SPI, s.VAC_CPI_SPI]

/-- C7: on an empty ledger the engine raises nothing (it is a total
function): the detail sequence is empty and the summary is the explicit
placeholder record — BAC from the caller or `0.0`, zero cumulative
totals, and the NaN sentinel for every ratio and forecast; every
float-valued field is present and is a finite value or the sentinel. -/
theorem C7_empty_ledger (b : Option ℚ) :
    (compute_evm [] b).1 = [] ∧
    (compute_evm [] b).2 =
      { BAC := (match b with | some q => .fin q | none => .fin 0)
        BAC_source := (if b.isSome then "user" else "inferred_from_last_PV_cum")
        PV_cum := .fin 0, EV_cum := .fin 0, AC_cum := .fin 0
        SPI := .nan, CPI := .nan, SV := .nan, CV := .nan
        EAC_CPI := .nan, ETC_CPI := .nan, VAC_CPI := .nan
        EAC_CPI_SPI := .nan, ETC_CPI_SPI := .nan, VAC_CPI_SPI := .nan } ∧
    ∀ f ∈ summaryFields (compute_evm [] b).2, f = .nan ∨ ∃ q, f = .fin q := by
  have h2 : (compute_evm [] b).2 =
      { BAC := (match b with | some q => .fin q | none => .fin 0)
        BAC_source := (if b.isSome then "user" else "inferred_from_last_PV_cum")
        PV_cum := .fin 0, EV_cum := .fin 0, AC_cum := .fin 0
        SPI := .nan, CPI := .nan, SV := .nan, CV := .nan
        EAC_CPI := .nan, ETC_CPI := .nan, VAC_CPI := .nan
        EAC_CPI_SPI := .nan, ETC_CPI_SPI := .nan, VAC_CPI_SPI := .nan } := by
    cases b with
    | none => decide
    | some q =>
      simp [compute_evm, detailLoop, summarize, PyFloat.isNan]
  refine ⟨rfl, h2, ?_⟩
  intro f hf
  rw [h2] at hf
  simp only [summaryFields] at hf
  cases b with
  | none =>
    fin_cases hf <;> first
      | exact Or.inl rfl
      | exact Or.inr ⟨_, rfl⟩
  | some q =>
    fin_cases hf <;> first
      | exact Or.inl rfl
      | exact Or.inr ⟨_, rfl⟩

/-- C5 claim text says the inferred-BAC provenance tag is the literal
string `"inferred"`; the code writes `"inferred_from_last_PV_cum"`.  At
the claim's own example (no user BAC, final cumulative PV `100000`) the
BAC value is right but the tag differs. -/
theorem C5_provenance_counterexample :
    (compute_evm [⟨⟨2024, 1, 1⟩, .fin 100000, .fin 1, .fin 1⟩] none).2.BAC = .fin 100000 ∧
    (compute_evm [⟨⟨2024, 1, 1⟩, .fin 100000, .fin 1, .fin 1⟩] none).2.BAC_source ≠
      "inferred" := by
  refine ⟨by decide, by decide⟩

/-- C5 amended: a caller-supplied BAC is used verbatim with provenance
tag `"user"`; with no caller BAC the summary's BAC is the final detail
record's cumulative PV and the provenance tag is the literal
`"inferred_from_last_PV_cum"` (the code's inferred marker, not the bare
string `"inferred"`); on the claim's example the inferred BAC is 100000. -/
theorem C5_bac_resolution :
    (∀ (rows : List EVMRow) (b : ℚ),
      (compute_evm rows (some b)).2.BAC = .fin b ∧
      (compute_evm rows (some b)).2.BAC_source = "user") ∧
    (∀ (rows : List EVMRow) (L : DetailRecord),
      (compute_evm rows none).1.getLast? = some L →
      (compute_evm rows none).2.BAC = L.PV_cum ∧
      (compute_evm rows none).2.BAC_source = "inferred_from_last_PV_cum") ∧
    ((compute_evm [⟨⟨2024, 1, 1⟩, .fin 100000, .fin 1, .fin 1⟩] none).2.BAC = .fin 100000 ∧
     (compute_evm [⟨⟨2024, 1, 1⟩, .fin 100000, .fin 1, .fin 1⟩] none).2.BAC_source =
       "inferred_from_last_PV_cum") := by
  refine ⟨?_, ?_, by decide, by decide⟩
  · intro rows b
    constructor <;> simp [compute_evm, summarize]
  · intro rows L hL
    simp only [compute_evm] at hL ⊢
    rw [hL]
    constructor <;> simp [summarize]

/-- C5 witness: the second conjunct applied to the one-row 100000 ledger,
whose last detail record is computed concretely. -/
theorem C5_bac_resolution_witness :
    (compute_evm [⟨⟨2024, 1, 1⟩, .fin 100000, .fin 1, .fin 1⟩] none).2.BAC =
      .fin 100000 := by
  have h := C5_bac_resolution.2.1 [⟨⟨2024, 1, 1⟩, .fin 100000, .fin 1, .fin 1⟩]
    ⟨"2024-01-01", .fin 100000, .fin 1, .fin 1, .fin 100000, .fin 1, .fin 1,
      .fin (-99999), .fin 0, .fin (mkRat 1 100000), .fin 1⟩ (by decide)
  rw [h.1]

/-- A non-empty ledger produces a non-empty detail sequence. -/
theorem detailLoop_ne_nil (rows : List EVMRow) (a b c : PyFloat) (h : rows ≠ []) :
    detailLoop rows a b c ≠ [] := by
  cases rows with
  | nil => exact absurd rfl h
  | cons r rest => simp [detailLoop]

/-- The forecast triples of `summarize`, on a resolved finite BAC and
finite final CPI/SPI/AC/EV: exactly the two formula sets of the source
(`EAC = BAC/CPI`, `EAC = AC + (BAC-EV)/(CPI*SPI)`, with `ETC = EAC - AC`
and `VAC = BAC - EAC`). -/
theorem summarize_forecasts (L : DetailRecord) (bac : Option ℚ) (B c sp a e : ℚ)
    (hB : (summarize (some L) bac).BAC = .fin B)
    (hc : L.CPI = .fin c) (hsp : L.SPI = .fin sp)
    (ha : L.AC_cum = .fin a) (he : L.EV_cum = .fin e) :
    (c ≠ 0 →
      (summarize (some L) bac).EAC_CPI = .fin (B / c) ∧
      (summarize (some L) bac).ETC_CPI = .fin (B / c - a) ∧
      (summarize (some L) bac).VAC_CPI = .fin (B - B / c)) ∧
    (c * sp ≠ 0 →
      (summarize (some L) bac).EAC_CPI_SPI = .fin (a + (B - e) / (c * sp)) ∧
      (summarize (some L) bac).ETC_CPI_SPI = .fin (a + (B - e) / (c * sp) - a) ∧
      (summarize (some L) bac).VAC_CPI_SPI = .fin (B - (a + (B - e) / (c * sp)))) := by
  simp only [summarize] at hB ⊢
  constructor
  · intro hc0
    refine ⟨?_, ?_, ?_⟩ <;>
      simp [hc, hsp, ha, he, hB, PyFloat.isNan, safe_div_fin_fin, hc0,
        PyFloat.fin_mul_fin, PyFloat.fin_add_fin, PyFloat.fin_sub_fin]
  · intro hcsp
    refine ⟨?_, ?_, ?_⟩ <;>
      simp [hc, hsp, ha, he, hB, PyFloat.isNan, safe_div_fin_fin, hcsp,
        PyFloat.fin_mul_fin, PyFloat.fin_add_fin, PyFloat.fin_sub_fin]

/-- C1: for every non-empty ledger, the summary's terminal metrics are
the final detail record's cumulative values, and with a finite resolved
BAC and finite non-degenerate final CPI (resp. CPI·SPI) the two forecast
triples are computed by the spec's formulas; on the two-row example
ledger with BAC 5000 the final cumulatives are PV 2000 / EV 2000 /
AC 1950, SPI is 1, CPI is 2000/1950, and the cost-only EAC and VAC are
exactly 4875 and 125. -/
theorem C1_forecast_formulas :
    (∀ (rows : List EVMRow) (bac : Option ℚ) (B c sp a e : ℚ),
      rows ≠ [] →
      (compute_evm rows bac).2.BAC = .fin B →
      (compute_evm rows bac).2.CPI = .fin c →
      (compute_evm rows bac).2.SPI = .fin sp →
      (compute_evm rows bac).2.AC_cum = .fin a →
      (compute_evm rows bac).2.EV_cum = .fin e →
      (∃ L, (compute_evm rows bac).1.getLast? = some L ∧
        (compute_evm rows bac).2.PV_cum = L.PV_cum ∧
        (compute_evm rows bac).2.EV_cum = L.EV_cum ∧
        (compute_evm rows bac).2.AC_cum = L.AC_cum ∧
        (compute_evm rows bac).2.SPI = L.SPI ∧
        (compute_evm rows bac).2.CPI = L.CPI) ∧
      (c ≠ 0 →
        (compute_evm rows bac).2.EAC_CPI = .fin (B / c) ∧
        (compute_evm rows bac).2.ETC_CPI = .fin (B / c - a) ∧
        (compute_evm rows bac).2.VAC_CPI = .fin (B - B / c)) ∧
      (c * sp ≠ 0 →
        (compute_evm rows bac).2.EAC_CPI_SPI = .fin (a + (B - e) / (c * sp)) ∧
        (compute_evm rows bac).2.ETC_CPI_SPI = .fin (a + (B - e) / (c * sp) - a) ∧
        (compute_evm rows bac).2.VAC_CPI_SPI = .fin (B - (a + (B - e) / (c * sp))))) ∧
    ((compute_evm [⟨⟨2024, 1, 1⟩, .fin 1000, .fin 900, .fin 950⟩,
                   ⟨⟨2024, 2, 1⟩, .fin 1000, .fin 1100, .fin 1000⟩] (some 5000)).2.PV_cum =
        .fin 2000 ∧
     (compute_evm [⟨⟨2024, 1, 1⟩, .fin 1000, .fin 900, .fin 950⟩,
                   ⟨⟨2024, 2, 1⟩, .fin 1000, .fin 1100, .fin 1000⟩] (some 5000)).2.EV_cum =
        .fin 2000 ∧
     (compute_evm [⟨⟨2024, 1, 1⟩, .fin 1000, .fin 900, .fin 950⟩,
                   ⟨⟨2024, 2, 1⟩, .fin 1000, .fin 1100, .fin 1000⟩] (some 5000)).2.AC_cum =
        .fin 1950 ∧
     (compute_evm [⟨⟨2024, 1, 1⟩, .fin 1000, .fin 900, .fin 950⟩,
                   ⟨⟨2024, 2, 1⟩, .fin 1000, .fin 1100, .fin 1000⟩] (some 5000)).2.SPI =
        .fin 1 ∧
     (compute_evm [⟨⟨2024, 1, 1⟩, .fin 1000, .fin 900, .fin 950⟩,
                   ⟨⟨2024, 2, 1⟩, .fin 1000, .fin 1100, .fin 1000⟩] (some 5000)).2.CPI =
        .fin (mkRat 2000 1950) ∧
     (compute_evm [⟨⟨2024, 1, 1⟩, .fin 1000, .fin 900, .fin 950⟩,
                   ⟨⟨2024, 2, 1⟩, .fin 1000, .fin 1100, .fin 1000⟩] (some 5000)).2.EAC_CPI =
        .fin 4875 ∧
     (compute_evm [⟨⟨2024, 1, 1⟩, .fin 1000, .fin 900, .fin 950⟩,
                   ⟨⟨2024, 2, 1⟩, .fin 1000, .fin 1100, .fin 1000⟩] (some 5000)).2.VAC_CPI =
        .fin 125) := by
  constructor
  · intro rows bac B c sp a e hne hB hc hsp ha he
    have hout := detailLoop_ne_nil rows (.fin 0) (.fin 0) (.fin 0) hne
    obtain ⟨L, hL⟩ : ∃ L, (detailLoop rows (.fin 0) (.fin 0) (.fin 0)).getLast? = some L := by
      cases ho : (detailLoop rows (.fin 0) (.fin 0) (.fin 0)).getLast? with
      | none => exact absurd (List.getLast?_eq_none_iff.mp ho) hout
      | some L => exact ⟨L, rfl⟩
    simp only [compute_evm, hL] at hB hc hsp ha he ⊢
    have hc' : L.CPI = .fin c := by simpa [summarize] using hc
    have hsp' : L.SPI = .fin sp := by simpa [summarize] using hsp
    have ha' : L.AC_cum = .fin a := by simpa [summarize] using ha
    have he' : L.EV_cum = .fin e := by simpa [summarize] using he
    have hfore := summarize_forecasts L bac B c sp a e hB hc' hsp' ha' he'
    refine ⟨⟨L, rfl, ?_, ?_, ?_, ?_, ?_⟩, hfore.1, hfore.2⟩ <;> simp [summarize]
  · refine ⟨by decide, by decide, by decide, by decide, by decide, by decide, by decide⟩

/-- C1 witness: the universal part applied to the example ledger, with the
final CPI instantiated at its stored value `40/39 = 2000/1950`. -/
theorem C1_forecast_formulas_witness :
    (compute_evm [⟨⟨2024, 1, 1⟩, .fin 1000, .fin 900, .fin 950⟩,
                  ⟨⟨2024, 2, 1⟩, .fin 1000, .fin 1100, .fin 1000⟩] (some 5000)).2.EAC_CPI =
      .fin (5000 / mkRat 40 39) := by
  have h := C1_forecast_formulas.1
    [⟨⟨2024, 1, 1⟩, .fin 1000, .fin 900, .fin 950⟩,
     ⟨⟨2024, 2, 1⟩, .fin 1000, .fin 1100, .fin 1000⟩] (some 5000)
    5000 (mkRat 40 39) 1 1950 2000
    (by decide) (by decide) (by decide) (by decide) (by decide) (by decide)
  exact (h.2.1 (by decide)).1

/-- C4: `_parse_date` tries exactly the three formats `%Y-%m-%d`,
`%d/%m/%Y`, `%Y/%m/%d` in that order, returns the first match, and when
all three fail raises an error naming the unrecognized string; hence
`"03/04/2024"` parses day-first as day 3, month 4, year 2024. -/
theorem C4_parse_date_priority :
    (∀ (s : String) (dt : Date),
      strptime (matchYMD '-') (pyStrip s.toList) = some dt → _parse_date s = .ok dt) ∧
    (∀ (s : String) (dt : Date),
      strptime (matchYMD '-') (pyStrip s.toList) = none →
      strptime (matchDMY '/') (pyStrip s.toList) = some dt → _parse_date s = .ok dt) ∧
    (∀ (s : String) (dt : Date),
      strptime (matchYMD '-') (pyStrip s.toList) = none →
      strptime (matchDMY '/') (pyStrip s.toList) = none →
      strptime (matchYMD '/') (pyStrip s.toList) = some dt → _parse_date s = .ok dt) ∧
    (∀ s : String,
      strptime (matchYMD '-') (pyStrip s.toList) = none →
      strptime (matchDMY '/') (pyStrip s.toList) = none →
      strptime (matchYMD '/') (pyStrip s.toList) = none →
      _parse_date s =
        .error ("Unrecognized Date format: " ++ s ++ ". Use YYYY-MM-DD (recommended).")) ∧
    _parse_date "03/04/2024" = .ok ⟨2024, 4, 3⟩ ∧
    _parse_date "03/04/2024" ≠ .ok ⟨2024, 3, 4⟩ := by
  refine ⟨?_, ?_, ?_, ?_, by decide, by decide⟩
  · intro s dt h1
    simp only [String.toList] at h1
    simp [_parse_date, h1]
  · intro s dt h1 h2
    simp only [String.toList] at h1 h2
    simp [_parse_date, h1, h2]
  · intro s dt h1 h2 h3
    simp only [String.toList] at h1 h2 h3
    simp [_parse_date, h1, h2, h3]
  · intro s h1 h2 h3
    simp only [String.toList] at h1 h2 h3
    simp [_parse_date, h1, h2, h3]

/-- C4 witness: the second-priority format is the one that accepts
`"03/04/2024"`, after the ISO format has failed on it. -/
theorem C4_parse_date_priority_witness :
    _parse_date "03/04/2024" = .ok ⟨2024, 4, 3⟩ := by
  exact C4_parse_date_priority.2.1 "03/04/2024" ⟨2024, 4, 3⟩ (by decide) (by decide)

/-- A list with a contained element is non-empty. -/
theorem contains_true_ne_nil {l : List Char} {c : Char} (h : l.contains c = true) :
    l ≠ [] := by
  intro h0
  rw [h0] at h
  cases h

/-- C3: `_to_float`'s separator policy.  With both separators present the
rightmost one is the decimal point (the other is stripped as grouping);
with only commas the comma is the decimal separator; with only periods or
no separator the string goes to `float` unchanged; and the concrete
anchors: `"12,345.67"` and `"12.345,67"` both parse to `12345.67`,
`"1234,56"` parses to `1234.56`, and `""` parses to NaN, upon which the
reader rejects the row (it is never treated as zero). -/
theorem C3_to_float_separators :
    (∀ x : String,
      (pyStrip x.toList).contains ',' = true →
      (pyStrip x.toList).contains '.' = true →
      lastIdxOf ',' (pyStrip x.toList) > lastIdxOf '.' (pyStrip x.toList) →
      _to_float x =
        pyFloatE (commaToDot ((pyStrip x.toList).filter (fun c => c ≠ '.')))) ∧
    (∀ x : String,
      (pyStrip x.toList).contains ',' = true →
      (pyStrip x.toList).contains '.' = true →
      ¬ lastIdxOf ',' (pyStrip x.toList) > lastIdxOf '.' (pyStrip x.toList) →
      _to_float x = pyFloatE ((pyStrip x.toList).filter (fun c => c ≠ ','))) ∧
    (∀ x : String,
      (pyStrip x.toList).contains ',' = true →
      (pyStrip x.toList).contains '.' = false →
      _to_float x = pyFloatE (commaToDot (pyStrip x.toList))) ∧
    (∀ x : String,
      pyStrip x.toList ≠ [] →
      (pyStrip x.toList).contains ',' = false →
      _to_float x = pyFloatE (pyStrip x.toList)) ∧
    _to_float "12,345.67" = .ok (.fin (mkRat 1234567 100)) ∧
    _to_float "12.345,67" = .ok (.fin (mkRat 1234567 100)) ∧
    _to_float "1234,56" = .ok (.fin (mkRat 123456 100)) ∧
    _to_float "" = .ok .nan ∧
    PyFloat.nan ≠ .fin 0 ∧
    read_evm_csv [⟨"2024-01-01", "", "1", "1"⟩] =
      .error (.nanError 2 ⟨"2024-01-01", "", "1", "1"⟩) := by
  refine ⟨?_, ?_, ?_, ?_, by decide, by decide, by decide, by decide, by decide, by decide⟩
  · intro x hc hd hgt
    simp only [String.toList] at hc hd hgt
    have hne := contains_true_ne_nil hc
    simp at hc hd
    simp [_to_float, hne, hc, hd, hgt]
  · intro x hc hd hgt
    simp only [String.toList] at hc hd hgt
    have hne := contains_true_ne_nil hc
    simp at hc hd
    simp [_to_float, hne, hc, hd, hgt]
  · intro x hc hd
    simp only [String.toList] at hc hd
    have hne := contains_true_ne_nil hc
    simp at hc hd
    simp [_to_float, hne, hc, hd]
  · intro x hne hc
    simp only [String.toList] at hne hc
    simp at hc
    simp [_to_float, hne, hc]

/-- C3 witness: the comma-only branch applied to `"1234,56"`. -/
theorem C3_to_float_separators_witness :
    _to_float "1234,56" = pyFloatE (commaToDot (pyStrip "1234,56".toList)) := by
  exact C3_to_float_separators.2.2.1 "1234,56" (by decide) (by decide)

/-! ## Lemmas for the grouped-integer rejection (C10): a string whose
normalized form carries two or more decimal points never parses. -/

/-- Dropping a leading digit run does not change the dot count. -/
theorem count_dot_dropWhile_digits (l : List Char) :
    ((l.dropWhile isDigitC).count '.') = l.count '.' := by
  conv_rhs => rw [← List.takeWhile_append_dropWhile isDigitC l]
  rw [List.count_append]
  have h0 : (l.takeWhile isDigitC).count '.' = 0 := by
    rw [List.count_eq_zero]
    intro hm
    have := List.mem_takeWhile_imp hm
    simp [isDigitC] at this
  rw [h0, Nat.zero_add]

/-- Consuming an optional sign does not change the dot count. -/
theorem count_dot_parseSign (l : List Char) :
    ((parseSign l).2).count '.' = l.count '.' := by
  cases l with
  | nil => rfl
  | cons c t =>
    rw [parseSign]
    split_ifs with h1 h2
    · subst h1; simp [List.count_cons]
    · subst h2; simp [List.count_cons]
    · rfl

/-- A list with a positive count is non-empty. -/
theorem ne_nil_of_count_pos {l : List Char} {c : Char} (h : 0 < l.count c) :
    l ≠ [] := by
  intro h0
  rw [h0] at h
  simp at h

/-- `parseUnsigned` rejects any input carrying two or more dots. -/
theorem parseUnsigned_two_dots (l : List Char) (h : 2 ≤ l.count '.') :
    parseUnsigned l = none := by
  have h2 : 2 ≤ (l.dropWhile isDigitC).count '.' := by
    rw [count_dot_dropWhile_digits]; exact h
  rw [parseUnsigned]
  simp only [takeDigits]
  rcases hp : l.dropWhile isDigitC with _ | ⟨c, t⟩
  · rw [hp] at h2; simp at h2
  · rw [hp] at h2
    by_cases hcd : c = '.'
    · subst hcd
      have hdd : ('.' : Char) = '.' := rfl
      try dsimp only
      rw [if_pos hdd]
      try dsimp only
      have hcc : List.count '.' ('.' :: t) = List.count '.' t + 1 := by
        simp [List.count_cons]
      cases hemp : ((List.takeWhile isDigitC l).isEmpty && (List.takeWhile isDigitC t).isEmpty) with
      | true => simp
      | false =>
        rw [if_neg (by simp)]
        have h3 : 1 ≤ (t.dropWhile isDigitC).count '.' := by
          rw [count_dot_dropWhile_digits]; omega
        rcases hq : t.dropWhile isDigitC with _ | ⟨e, t2⟩
        · rw [hq] at h3; simp at h3
        · rw [hq] at h3
          try dsimp only
          by_cases he : e = 'e' ∨ e = 'E'
          · have hcond : (decide (e = 'e') || decide (e = 'E')) = true := by
              rcases he with he | he <;> simp [he]
            have hed : e ≠ '.' := by
              rcases he with he | he <;> subst he <;> decide
            have hcc2 : List.count '.' (e :: t2) = List.count '.' t2 := by
              simp [List.count_cons, hed]
            have h4 : 0 < ((parseSign t2).2.dropWhile isDigitC).count '.' := by
              rw [count_dot_dropWhile_digits, count_dot_parseSign]; omega
            obtain ⟨b, L, hbl⟩ := List.exists_cons_of_ne_nil (ne_nil_of_count_pos h4)
            rw [if_pos hcond]
            try dsimp only
            rw [if_pos (by simp [hbl])]
          · have hne1 : e ≠ 'e' := fun hx => he (Or.inl hx)
            have hne2 : e ≠ 'E' := fun hx => he (Or.inr hx)
            rw [if_neg (by simp [hne1, hne2])]
    · try dsimp only
      rw [if_neg hcd]
      try dsimp only
      cases hemp : ((List.takeWhile isDigitC l).isEmpty && (List.isEmpty ([] : List Char))) with
      | true => simp
      | false =>
        rw [if_neg (by simp)]
        try dsimp only
        have hcc : List.count '.' (c :: t) = List.count '.' t := by
          simp [List.count_cons, hcd]
        by_cases he : c = 'e' ∨ c = 'E'
        · have hcond : (decide (c = 'e') || decide (c = 'E')) = true := by
            rcases he with he | he <;> simp [he]
          have h4 : 0 < ((parseSign t).2.dropWhile isDigitC).count '.' := by
            rw [count_dot_dropWhile_digits, count_dot_parseSign]; omega
          obtain ⟨b, L, hbl⟩ := List.exists_cons_of_ne_nil (ne_nil_of_count_pos h4)
          rw [if_pos hcond]
          try dsimp only
          rw [if_pos (by simp [hbl])]
        · have hne1 : c ≠ 'e' := fun hx => he (Or.inl hx)
          have hne2 : c ≠ 'E' := fun hx => he (Or.inr hx)
          rw [if_neg (by simp [hne1, hne2])]

/-- `float(...)` rejects any input carrying two or more dots (the literal
`inf`/`nan` forms contain none, and a decimal admits at most one). -/
theorem pyFloat?_two_dots (l : List Char) (h : 2 ≤ l.count '.') :
    pyFloat? l = none := by
  have hsg : 2 ≤ ((parseSign l).2).count '.' := by
    rw [count_dot_parseSign]; exact h
  have hmem : '.' ∈ (parseSign l).2 :=
    List.count_pos_iff.mp (Nat.lt_of_lt_of_le Nat.zero_lt_two hsg)
  have hlow : '.' ∈ (parseSign l).2.map Char.toLower :=
    List.mem_map.mpr ⟨'.', hmem, rfl⟩
  have hne1 : (parseSign l).2.map Char.toLower ≠ ['i', 'n', 'f'] := by
    intro he; rw [he] at hlow; simp at hlow
  have hne2 : (parseSign l).2.map Char.toLower ≠ ['i', 'n', 'f', 'i', 'n', 'i', 't', 'y'] := by
    intro he; rw [he] at hlow; simp at hlow
  have hne3 : (parseSign l).2.map Char.toLower ≠ ['n', 'a', 'n'] := by
    intro he; rw [he] at hlow; simp at hlow
  simp only [pyFloat?]
  rw [if_neg (by simp [hne1, hne2])]
  rw [if_neg (by simp [hne3])]
  rw [parseUnsigned_two_dots _ hsg]

/-- Replacing commas by dots turns every comma into an extra dot. -/
theorem count_dot_commaToDot (l : List Char) :
    (commaToDot l).count '.' = l.count ',' + l.count '.' := by
  induction l with
  | nil => rfl
  | cons c t ih =>
    simp only [commaToDot, List.map_cons] at ih ⊢
    by_cases h1 : c = ','
    · subst h1
      rw [if_pos rfl, List.count_cons, List.count_cons, List.count_cons, ih]
      simp
      omega
    · rw [if_neg h1, List.count_cons, List.count_cons, List.count_cons, ih]
      by_cases h2 : c = '.'
      · subst h2
        simp [(by decide : ¬((',' : Char) = '.'))]
        omega
      · simp [h1, h2]

/-- C10: a numeric field with two or more commas and no period — a
European-style grouped integer such as `"1,234,567"` — is never accepted:
the comma-only rule turns every comma into a decimal point, `float`
rejects the multi-dot result with an error, and the reader rejects the
whole row. -/
theorem C10_grouped_integer_rejected :
    (∀ x : String,
      2 ≤ (pyStrip x.toList).count ',' →
      (pyStrip x.toList).count '.' = 0 →
      _to_float x = .error ("could not convert string to float: " ++
        String.mk (commaToDot (pyStrip x.toList)))) ∧
    _to_float "1,234,567" = .error "could not convert string to float: 1.234.567" ∧
    read_evm_csv [⟨"2024-01-01", "1,234,567", "1", "1"⟩] =
      .error (.parseError 2 "could not convert string to float: 1.234.567") := by
  refine ⟨?_, by decide, by decide⟩
  intro x hc hd
  simp only [String.toList] at hc hd
  have hmem : ',' ∈ pyStrip x.data :=
    List.count_pos_iff.mp (Nat.lt_of_lt_of_le Nat.zero_lt_two hc)
  have hne : pyStrip x.data ≠ [] :=
    ne_nil_of_count_pos (Nat.lt_of_lt_of_le Nat.zero_lt_two hc)
  have hdot : '.' ∉ pyStrip x.data := List.count_eq_zero.mp hd
  have h2 : 2 ≤ (commaToDot (pyStrip x.data)).count '.' := by
    rw [count_dot_commaToDot, hd]
    omega
  simp only [_to_float, String.toList]
  rw [if_neg hne]
  rw [if_neg (by simp [hdot])]
  rw [if_pos (by simp [hmem])]
  simp only [pyFloatE]
  rw [pyFloat?_two_dots _ h2]

/-! ## Reader invariants (C8, C9). -/

theorem mem_insertRow {r x : EVMRow} {l : List EVMRow} :
    x ∈ insertRow r l ↔ x = r ∨ x ∈ l := by
  induction l with
  | nil => simp [insertRow]
  | cons y ys ih =>
    rw [insertRow]
    split_ifs with h
    · simp [ih]
      tauto
    · simp

theorem mem_sortByDate {x : EVMRow} {l : List EVMRow} :
    x ∈ sortByDate l ↔ x ∈ l := by
  induction l with
  | nil => simp [sortByDate]
  | cons y ys ih =>
    rw [sortByDate, mem_insertRow]
    simp [ih]

/-- Every row the loop accepts has non-NaN amounts (the `isnan` check). -/
theorem readLoop_ok_non_nan (raws : List RawRow) :
    ∀ (i : ℕ) (rows : List EVMRow), readLoop raws i = .ok rows →
      ∀ r ∈ rows, r.pv.isNan = false ∧ r.ev.isNan = false ∧ r.ac.isNan = false := by
  induction raws with
  | nil =>
    intro i rows h r hr
    rw [readLoop] at h
    cases h
    simp at hr
  | cons a as ih =>
    intro i rows h r hr
    rw [readLoop] at h
    cases hp : parseRow a with
    | error e => rw [hp] at h; cases h
    | ok val =>
      obtain ⟨date, pv, ev, ac⟩ := val
      rw [hp] at h
      dsimp only at h
      cases hnan : (pv.isNan || ev.isNan || ac.isNan) with
      | true => rw [hnan] at h; simp at h
      | false =>
        rw [hnan] at h
        simp only [Bool.false_eq_true, if_false] at h
        cases hrec : readLoop as (i + 1) with
        | error e => rw [hrec] at h; cases h
        | ok tl =>
          rw [hrec] at h
          injection h with h2
          subst h2
          simp only [Bool.or_eq_false_iff] at hnan
          rw [List.mem_cons] at hr
          rcases hr with hr | hr
          · subst hr
            exact ⟨hnan.1.1, hnan.1.2, hnan.2⟩
          · exact ih (i + 1) tl hrec r hr

/-- C8 claim text says every constructed amount is a non-NaN *finite*
value and violating rows are rejected.  The loop checks only `isnan`:
the string `"inf"` passes `float` and the NaN check, so a row with an
infinite PV is accepted, not rejected. -/
theorem C8_infinite_amount_counterexample :
    read_evm_csv [⟨"2024-01-01", "inf", "1", "1"⟩] =
      .ok [⟨⟨2024, 1, 1⟩, .inf true, .fin 1, .fin 1⟩] ∧
    (PyFloat.inf true).isFinite = false ∧
    (PyFloat.inf true).isNan = false := by
  refine ⟨by decide, by decide, by decide⟩

/-- C8 amended: every amount in a ledger row constructed by the reader is
non-NaN (rows with a NaN amount are rejected before reaching the engine);
finiteness is not enforced — infinities pass through. -/
theorem C8_rows_non_nan (raws : List RawRow) (rows : List EVMRow)
    (h : read_evm_csv raws = .ok rows) :
    ∀ r ∈ rows, r.pv.isNan = false ∧ r.ev.isNan = false ∧ r.ac.isNan = false := by
  intro r hr
  rw [read_evm_csv] at h
  cases hl : readLoop raws 2 with
  | error e => rw [hl] at h; cases h
  | ok rows0 =>
    rw [hl] at h
    cases h
    exact readLoop_ok_non_nan raws 2 rows0 hl r (mem_sortByDate.mp hr)

/-- C8 witness: the amended theorem applied to a concrete accepted row. -/
theorem C8_rows_non_nan_witness :
    (PyFloat.fin 1).isNan = false ∧ (PyFloat.fin 2).isNan = false ∧
    (PyFloat.fin 3).isNan = false := by
  exact C8_rows_non_nan [⟨"2024-01-01", "1", "2", "3"⟩]
    [⟨⟨2024, 1, 1⟩, .fin 1, .fin 2, .fin 3⟩] (by decide)
    ⟨⟨2024, 1, 1⟩, .fin 1, .fin 2, .fin 3⟩ (by decide)

/-- A raw row the loop rejects: its parse raises, or a parsed amount is
NaN (an empty or whitespace-only field). -/
def rowRejected (r : RawRow) : Bool :=
  match parseRow r with
  | .error _ => true
  | .ok (_, pv, ev, ac) => pv.isNan || ev.isNan || ac.isNan

/-- One amount field is bad: `_to_float` raises, or it yields NaN. -/
def fieldBad (s : String) : Bool :=
  match _to_float s with
  | .error _ => true
  | .ok v => v.isNan

/-- A rejected head row aborts the loop with exactly its row error. -/
theorem readLoop_head_rejected (a : RawRow) (as : List RawRow) (i : ℕ)
    (h : rowRejected a = true) :
    readLoop (a :: as) i = .error (rowErrorFor i a) := by
  rw [readLoop, rowErrorFor]
  cases hp : parseRow a with
  | error e => rfl
  | ok val =>
    obtain ⟨date, pv, ev, ac⟩ := val
    rw [rowRejected, hp] at h
    dsimp only
    rw [if_pos h]

/-- The loop aborts at the first rejected row, reporting its enumerated
file-row number and its own error. -/
theorem readLoop_first_bad (raws : List RawRow) :
    ∀ i : ℕ, (∃ r ∈ raws, rowRejected r = true) →
    ∃ (j : ℕ) (hj : j < raws.length),
      rowRejected (raws.get ⟨j, hj⟩) = true ∧
      (∀ (k : ℕ) (hk : k < raws.length), k < j → rowRejected (raws.get ⟨k, hk⟩) = false) ∧
      readLoop raws i = .error (rowErrorFor (i + j) (raws.get ⟨j, hj⟩)) := by
  induction raws with
  | nil =>
    intro i h
    simp at h
  | cons a as ih =>
    intro i h
    by_cases ha : rowRejected a = true
    · refine ⟨0, by simp, by simpa using ha, ?_, ?_⟩
      · intro k hk hk0
        omega
      · rw [Nat.add_zero]
        exact readLoop_head_rejected a as i ha
    · have ha' : rowRejected a = false := by
        rw [Bool.eq_false_iff]
        exact ha
      obtain ⟨r, hrmem, hrbad⟩ := h
      rw [List.mem_cons] at hrmem
      have has : ∃ r ∈ as, rowRejected r = true := by
        rcases hrmem with hrmem | hrmem
        · rw [hrmem] at hrbad
          exact absurd hrbad ha
        · exact ⟨r, hrmem, hrbad⟩
      obtain ⟨j, hj, hbad, hmin, heq⟩ := ih (i + 1) has
      refine ⟨j + 1, by simpa using Nat.succ_lt_succ hj, by simpa using hbad, ?_, ?_⟩
      · intro k hk hkj
        cases k with
        | zero => simpa using ha'
        | succ k' =>
          have hk' : k' < as.length := by simpa using Nat.lt_of_succ_lt_succ hk
          have := hmin k' hk' (Nat.lt_of_succ_lt_succ hkj)
          simpa using this
      · rw [readLoop]
        cases hp : parseRow a with
        | error e =>
          rw [rowRejected, hp] at ha'
          cases ha'
        | ok val =>
          obtain ⟨date, pv, ev, ac⟩ := val
          rw [rowRejected, hp] at ha'
          dsimp only at ha' ⊢
          rw [ha']
          simp only [Bool.false_eq_true, if_false]
          rw [heq]
          have : i + 1 + j = i + (j + 1) := by omega
          rw [this]
          rfl

/-- C9: an input with at least one bad row — a date none of the three
formats accepts, or an empty/non-numeric PV/EV/AC field — makes the whole
run abort at the first such row: the reader returns an error (no partial
row list), the error carries the 1-based file row number of that row
(`2 + j`, the header being file row 1), and its payload is built from the
offending row (the wrapped parse message for a parse failure, the raw
record itself for the NaN check); `rowRejected` coincides with the
claim's bad-date-or-bad-field condition. -/
theorem C9_first_bad_row_aborts :
    (∀ raws : List RawRow,
      (∃ r ∈ raws, rowRejected r = true) →
      ∃ (j : ℕ) (hj : j < raws.length),
        rowRejected (raws.get ⟨j, hj⟩) = true ∧
        (∀ (k : ℕ) (hk : k < raws.length), k < j → rowRejected (raws.get ⟨k, hk⟩) = false) ∧
        read_evm_csv raws = .error (rowErrorFor (2 + j) (raws.get ⟨j, hj⟩)) ∧
        (rowErrorFor (2 + j) (raws.get ⟨j, hj⟩)).rowIdx = 2 + j) ∧
    (∀ r : RawRow,
      rowRejected r = true ↔
        ((_parse_date r.Date).isOk = false ∨
         fieldBad r.PV = true ∨ fieldBad r.EV = true ∨ fieldBad r.AC = true)) := by
  constructor
  · intro raws h
    obtain ⟨j, hj, hbad, hmin, heq⟩ := readLoop_first_bad raws 2 h
    refine ⟨j, hj, hbad, hmin, ?_, ?_⟩
    · rw [read_evm_csv, heq]
    · rw [rowErrorFor]
      cases hp : parseRow (raws.get ⟨j, hj⟩) <;> rfl
  · intro r
    rw [rowRejected, fieldBad, fieldBad, fieldBad, parseRow]
    cases h1 : _parse_date r.Date with
    | error e => simp [Except.isOk, Except.toBool]
    | ok date =>
      cases h2 : _to_float r.PV with
      | error e => simp [Except.isOk, Except.toBool]
      | ok pv =>
        cases h3 : _to_float r.EV with
        | error e => simp [Except.isOk, Except.toBool]
        | ok ev =>
          cases h4 : _to_float r.AC with
          | error e => simp [Except.isOk, Except.toBool]
          | ok ac =>
            simp [Except.isOk, Except.toBool]
            tauto

/-- C9 witness: a two-row input whose second row has an unparseable date
aborts with the error for file row 3, and the claim's bad-field reading
agrees with the loop's rejection on that row. -/
theorem C9_first_bad_row_aborts_witness :
    read_evm_csv [⟨"2024-01-01", "1", "2", "3"⟩, ⟨"bad", "1", "2", "3"⟩] =
      .error (.parseError 3 "Unrecognized Date format: bad. Use YYYY-MM-DD (recommended).") ∧
    rowRejected ⟨"bad", "1", "2", "3"⟩ = true := by
  have h := C9_first_bad_row_aborts.1
    [⟨"2024-01-01", "1", "2", "3"⟩, ⟨"bad", "1", "2", "3"⟩]
    ⟨⟨"bad", "1", "2", "3"⟩, by decide, by decide⟩
  exact ⟨by decide, by decide⟩

/-- C10 witness: the general rejection applied to `"1,234,567"`. -/
theorem C10_grouped_integer_rejected_witness :
    _to_float "1,234,567" = .error ("could not convert string to float: " ++
      String.mk (commaToDot (pyStrip "1,234,567".toList))) := by
  exact C10_grouped_integer_rejected.1 "1,234,567" (by decide) (by decide)
